import Mathlib

/-!
Verification development for the freelance_pay escrow platform.

The escrow ledger is embedded from the Solidity contract `FreelanceEscrow`
(client/freelancer addresses are modelled as naturals, the zero payment-token
address selects the native asset, ERC20 transfers of a compliant token are
modelled as succeeding balance moves).  The verification coordinator is
embedded from the React handlers `handleVerifyMilestone` / `handlePayMilestone`
and the `verifyAndPayMilestone` web3 helper; the GitHub oracle is embedded from
the `github-oracle` edge function.  Errors are explicit `Except` values and a
reverted transaction leaves the state unchanged (`exec`).
-/

namespace FreelancePay

/-- Rejection reasons of the `FreelanceEscrow` contract, one per `require`
message that can abort an operation. -/
inductive LedgerError where
  | OnlyClient
  | AlreadyFunded
  | AmountMismatch
  | NonzeroValueForToken
  | NotActive
  | InvalidSlot
  | AlreadyPaid
  | AlreadyVerified
  | NotVerified
  | TransferFailed
  deriving DecidableEq, Repr

/-- One milestone slot of the contract: `struct Milestone`. -/
structure Milestone where
  amount : Nat
  isPaid : Bool
  isVerified : Bool
  verificationHash : String
  deriving DecidableEq, Repr

/-- Contract storage plus the cumulative asset flows needed to state
conservation: `balance` is the contract's holding of the payment asset,
`freelancerReceived` / `clientReceived` the totals transferred out so far. -/
structure EscrowState where
  client : Nat
  freelancer : Nat
  paymentToken : Nat
  totalAmount : Nat
  isActive : Bool
  milestones : List Milestone
  balance : Nat
  freelancerReceived : Nat
  clientReceived : Nat
  deriving DecidableEq, Repr

/-- The constructor: requires nonzero parties, a nonempty milestone list and
positive amounts; `totalAmount` is the sum of the slot amounts. -/
def deployEscrow (client freelancer paymentToken : Nat) (amounts : List Nat) :
    Option EscrowState :=
  if client = 0 then none
  else if freelancer = 0 then none
  else if amounts.length = 0 then none
  else if amounts.all (fun a => 0 < a) then
    some { client := client
           freelancer := freelancer
           paymentToken := paymentToken
           totalAmount := amounts.sum
           isActive := false
           milestones := amounts.map (fun a =>
             { amount := a, isPaid := false, isVerified := false,
               verificationHash := "" })
           balance := 0
           freelancerReceived := 0
           clientReceived := 0 }
  else none

/-- `depositFunds`: only the client, only while not active; the native branch
requires `msg.value == totalAmount`, the token branch requires `msg.value == 0`
and pulls `totalAmount` via `transferFrom` (modelled as a compliant token). -/
def depositFunds (s : EscrowState) (sender msgValue : Nat) :
    Except LedgerError EscrowState :=
  if sender ≠ s.client then .error .OnlyClient
  else if s.isActive then .error .AlreadyFunded
  else if s.paymentToken = 0 then
    if msgValue ≠ s.totalAmount then .error .AmountMismatch
    else .ok { s with isActive := true, balance := s.balance + msgValue }
  else
    if msgValue ≠ 0 then .error .NonzeroValueForToken
    else .ok { s with isActive := true, balance := s.balance + s.totalAmount }

/-- `verifyMilestone`: only the client, only while active, slot in range, not
yet paid, not yet verified; stores the evidence hash opaquely. -/
def verifyMilestone (s : EscrowState) (sender idx : Nat) (hash : String) :
    Except LedgerError EscrowState :=
  if sender ≠ s.client then .error .OnlyClient
  else if !s.isActive then .error .NotActive
  else
    match s.milestones[idx]? with
    | none => .error .InvalidSlot
    | some m =>
      if m.isPaid then .error .AlreadyPaid
      else if m.isVerified then .error .AlreadyVerified
      else
        let m' : Milestone := { m with isVerified := true, verificationHash := hash }
        .ok { s with milestones := s.milestones.set idx m' }

/-- The state at the moment of the outward transfer inside
`releaseMilestonePayment`: the slot's `isPaid` flag has already been set. -/
def markPaid (s : EscrowState) (idx : Nat) : EscrowState :=
  match s.milestones[idx]? with
  | none => s
  | some m =>
    let m' : Milestone := { m with isPaid := true }
    { s with milestones := s.milestones.set idx m' }

/-- The outward transfer to a recipient: fails (reverting the transaction)
if the contract's holding cannot cover the amount. -/
def payFreelancer (s : EscrowState) (amt : Nat) :
    Except LedgerError EscrowState :=
  if amt ≤ s.balance then
    .ok { s with balance := s.balance - amt,
                 freelancerReceived := s.freelancerReceived + amt }
  else .error .TransferFailed

/-- `releaseMilestonePayment`: only the client, only while active, slot in
range, verified and not yet paid; sets `isPaid` first and only then performs
the outward transfer of the slot amount to the freelancer. -/
def releaseMilestonePayment (s : EscrowState) (sender idx : Nat) :
    Except LedgerError EscrowState :=
  if sender ≠ s.client then .error .OnlyClient
  else if !s.isActive then .error .NotActive
  else
    match s.milestones[idx]? with
    | none => .error .InvalidSlot
    | some m =>
      if !m.isVerified then .error .NotVerified
      else if m.isPaid then .error .AlreadyPaid
      else payFreelancer (markPaid s idx) m.amount

/-- Sum of the amounts of the unpaid slots, as accumulated by the refund loop
in `cancelEscrow`. -/
def unpaidSum (ms : List Milestone) : Nat :=
  ((ms.filter (fun m => !m.isPaid)).map Milestone.amount).sum

/-- `cancelEscrow`: only the client, only while active; refunds the sum of the
unpaid slot amounts to the client (if positive) and clears `isActive`. -/
def cancelEscrow (s : EscrowState) (sender : Nat) :
    Except LedgerError EscrowState :=
  if sender ≠ s.client then .error .OnlyClient
  else if !s.isActive then .error .NotActive
  else
    let refund := unpaidSum s.milestones
    if 0 < refund then
      if refund ≤ s.balance then
        .ok { s with balance := s.balance - refund,
                     clientReceived := s.clientReceived + refund,
                     isActive := false }
      else .error .TransferFailed
    else .ok { s with isActive := false }

/-- A ledger-affecting transaction. -/
inductive Op where
  | fund (sender msgValue : Nat)
  | verify (sender idx : Nat) (hash : String)
  | release (sender idx : Nat)
  | cancel (sender : Nat)
  deriving DecidableEq, Repr

/-- Dispatch one transaction. -/
def stepE (s : EscrowState) : Op → Except LedgerError EscrowState
  | .fund sender v => depositFunds s sender v
  | .verify sender i h => verifyMilestone s sender i h
  | .release sender i => releaseMilestonePayment s sender i
  | .cancel sender => cancelEscrow s sender

/-- Whether a transaction succeeds on a state. -/
def opOk (s : EscrowState) (op : Op) : Bool :=
  match stepE s op with
  | .ok _ => true
  | .error _ => false

/-- Transaction semantics: a rejected transaction reverts, leaving the state
unchanged. -/
def exec (s : EscrowState) (op : Op) : EscrowState :=
  match stepE s op with
  | .ok s' => s'
  | .error _ => s

/-- Run a sequence of transactions. -/
def run (s : EscrowState) (ops : List Op) : EscrowState := ops.foldl exec s

/-- The `verified` flag of slot `i` (false for an out-of-range index). -/
def slotVerified (s : EscrowState) (i : Nat) : Bool :=
  match s.milestones[i]? with
  | some m => m.isVerified
  | none => false

/-- The `paid` flag of slot `i` (false for an out-of-range index). -/
def slotPaid (s : EscrowState) (i : Nat) : Bool :=
  match s.milestones[i]? with
  | some m => m.isPaid
  | none => false

/-- Sum of the amounts of the paid slots. -/
def paidSum (ms : List Milestone) : Nat :=
  (ms.map (fun m => if m.isPaid then m.amount else 0)).sum

/-- Sum of all slot amounts. -/
def amountSum (ms : List Milestone) : Nat := (ms.map Milestone.amount).sum

example :
    deployEscrow 1 2 0 [100] =
      some { client := 1, freelancer := 2, paymentToken := 0,
             totalAmount := 100, isActive := false,
             milestones := [{ amount := 100, isPaid := false,
                              isVerified := false, verificationHash := "" }],
             balance := 0, freelancerReceived := 0, clientReceived := 0 } := by
  decide

example :
    opOk (run { client := 1, freelancer := 2, paymentToken := 0,
                totalAmount := 100, isActive := false,
                milestones := [{ amount := 100, isPaid := false,
                                 isVerified := false, verificationHash := "" }],
                balance := 0, freelancerReceived := 0, clientReceived := 0 }
          [.fund 1 100, .cancel 1]) (.fund 1 100) = true := by
  decide

/-! ## GitHub oracle (`supabase/functions/github-oracle/index.ts`) -/

/-- One commit as retrieved from the upstream source. -/
structure Commit where
  sha : String
  authorName : String
  authorDate : String
  message : String
  htmlUrl : String
  deriving DecidableEq, Repr

/-- The `latestCommit` evidence object of the oracle's response body. -/
structure LatestCommitInfo where
  shaShort : String
  fullSha : String
  url : String
  message : String
  author : String
  date : String
  deriving DecidableEq, Repr

/-- The JSON body the oracle returns to the Coordinator.  An error body
carries `verified:false` plus an `error` string and no other data (the
absent fields are modelled as `0` / `none`). -/
structure OracleBody where
  verified : Bool
  commitCount : Nat
  minCommits : Nat
  latestCommit : Option LatestCommitInfo
  error : Option String
  deriving DecidableEq, Repr

/-- The oracle's HTTP response: status code and JSON body. -/
structure OracleHttp where
  status : Nat
  body : OracleBody
  deriving DecidableEq, Repr

/-- `message.split('\n')[0]`: the first line of a commit message. -/
def firstLine (s : String) : String := (s.splitOn "\n").headD ""

/-- The evidence built from the most recent commit (`commits[0]`). -/
def mkLatestCommitInfo (c : Commit) : LatestCommitInfo :=
  { shaShort := c.sha.take 7
    fullSha := c.sha
    url := c.htmlUrl
    message := firstLine c.message
    author := c.authorName
    date := c.authorDate }

/-- The `github-oracle` request handler after parameter validation, as a
function of the upstream GitHub response: its HTTP status and (when
successful) the retrieved commit list, newest first.  A non-2xx upstream
response (`!response.ok`) produces an HTTP-200 reply whose body has
`verified:false` and an `error` string; a 2xx upstream response produces
the verdict `commits.length >= minCommits` with the latest commit as
evidence. -/
def githubOracle (upstreamStatus : Nat) (commits : List Commit)
    (minCommits : Nat) : OracleHttp :=
  if ¬ (200 ≤ upstreamStatus ∧ upstreamStatus < 300) then
    { status := 200
      body := { verified := false
                commitCount := 0
                minCommits := minCommits
                latestCommit := none
                error := some ("GitHub API error: " ++ toString upstreamStatus) } }
  else
    { status := 200
      body := { verified := decide (minCommits ≤ commits.length)
                commitCount := commits.length
                minCommits := minCommits
                latestCommit := commits.head?.map mkLatestCommitInfo
                error := none } }

/-! ## Verification Coordinator (`ProjectDetails.tsx` handlers and
`verifyAndPayMilestone` in `web3.ts`) -/

/-- Outcome column of a `verification_logs` row. -/
inductive LogStatus where
  | success
  | failed
  deriving DecidableEq, Repr

/-- One `verification_logs` row: the raw oracle response is stored as the
verdict flag plus the error string, with the derived outcome. -/
structure VerificationLog where
  vtype : String
  oracleVerified : Bool
  oracleError : Option String
  status : LogStatus
  deriving DecidableEq, Repr

/-- One `transactions` row inserted by the Coordinator. -/
structure TransactionRecord where
  amount : Nat
  txType : String
  status : String
  deriving DecidableEq, Repr

/-- Off-chain milestone lifecycle states. -/
inductive MilestoneStatus where
  | pending
  | inProgress
  | submitted
  | verified
  | paid
  deriving DecidableEq, Repr

/-- The Coordinator's world for one milestone: its off-chain record, the
append-only logs, and the escrow ledger it drives. `orderIndex` joins the
off-chain milestone with the ledger slot; `offAmount` is the off-chain
amount column; `verificationHash` the hash passed on-chain. -/
structure CoordState where
  mstatus : MilestoneStatus
  offAmount : Nat
  orderIndex : Nat
  verificationHash : String
  verifLogs : List VerificationLog
  txRecords : List TransactionRecord
  ledger : EscrowState
  deriving DecidableEq, Repr

/-- The `verification_logs` row the Coordinator inserts for verdict `r`:
the raw response (verdict flag and error string) plus the derived outcome
`success`/`failed`. -/
def mkVerificationLog (r : OracleBody) : VerificationLog :=
  { vtype := "github"
    oracleVerified := r.verified
    oracleError := r.error
    status := if r.verified then .success else .failed }

/-- `handleVerifyMilestone`, GitHub branch: insert one `verification_logs`
row whose status is `success`/`failed` by the raw verdict, and only on a
positive verdict set the off-chain milestone status to `verified`.  No
ledger transaction is issued. -/
def handleVerifyMilestone (w : CoordState) (r : OracleBody) : CoordState :=
  let log : VerificationLog := mkVerificationLog r
  let w1 := { w with verifLogs := w.verifLogs ++ [log] }
  if r.verified then { w1 with mstatus := .verified } else w1

/-- The `verification_logs` row the figma branch inserts for verdict `r`:
identical to the github row up to `verification_type: 'figma'` (only the
`verified` flag and error string of the raw figma response are relevant
here). -/
def mkVerificationLogFigma (r : OracleBody) : VerificationLog :=
  { vtype := "figma"
    oracleVerified := r.verified
    oracleError := r.error
    status := if r.verified then .success else .failed }

/-- `handleVerifyMilestone`, figma branch: identical to the github branch
up to the record's `verification_type` — insert one `verification_logs`
row, and mark the milestone `verified` only on a positive verdict. -/
def handleVerifyMilestoneFigma (w : CoordState) (r : OracleBody) :
    CoordState :=
  let log : VerificationLog := mkVerificationLogFigma r
  let w1 := { w with verifLogs := w.verifLogs ++ [log] }
  if r.verified then { w1 with mstatus := .verified } else w1

/-- `handleVerifyMilestone`, manual branch (the `else` of the
`verification_type` dispatch): the milestone is marked `verified` directly
and no verification record is inserted at all. -/
def handleVerifyMilestoneManual (w : CoordState) : CoordState :=
  { w with mstatus := .verified }

/-- Failures surfaced by `verifyAndPayMilestone`: the wallet-mismatch check,
the empty-contract-balance check, and any contract rejection (rethrown as
`Transaction failed: ...` — never swallowed). -/
inductive PayError where
  | walletMismatch
  | noFunds
  | txFailed (e : LedgerError)
  deriving DecidableEq, Repr

/-- `verifyAndPayMilestone` (`web3.ts`): check the connected wallet is the
contract's client, check the contract holds funds, then call the ledger's
`verifyMilestone` and, on success, `releaseMilestonePayment`.  Every
contract rejection — including `AlreadyVerified` and `AlreadyPaid` — is
propagated as an error. -/
def verifyAndPayMilestone (s : EscrowState) (sender idx : Nat)
    (hash : String) : Except PayError EscrowState :=
  if sender ≠ s.client then .error .walletMismatch
  else if s.balance = 0 then .error .noFunds
  else
    match verifyMilestone s sender idx hash with
    | .error e => .error (.txFailed e)
    | .ok s1 =>
      match releaseMilestonePayment s1 sender idx with
      | .error e => .error (.txFailed e)
      | .ok s2 => .ok s2

/-- `handlePayMilestone`: run `verifyAndPayMilestone`; on success insert a
confirmed transaction row and mark the off-chain milestone `paid`; on any
error change nothing off-chain and surface the error. -/
def handlePayMilestone (w : CoordState) (sender : Nat) :
    CoordState × Option PayError :=
  match verifyAndPayMilestone w.ledger sender w.orderIndex
      w.verificationHash with
  | .ok s' =>
    let tx : TransactionRecord :=
      { amount := w.offAmount, txType := "milestone_payment",
        status := "confirmed" }
    ({ w with ledger := s'
              txRecords := w.txRecords ++ [tx]
              mstatus := .paid }, none)
  | .error e => (w, some e)

/-- `handleSubmitMilestone`: the freelancer marks the milestone submitted. -/
def handleSubmitMilestone (w : CoordState) : CoordState :=
  { w with mstatus := .submitted }

/-- One Coordinator action. -/
inductive CoordOp where
  | oracleVerify (r : OracleBody)
  | pay (sender : Nat)
  | submit
  deriving DecidableEq, Repr

/-- Dispatch one Coordinator action (the error of a failed payment is
alerted, not recorded). -/
def coordStep (w : CoordState) : CoordOp → CoordState
  | .oracleVerify r => handleVerifyMilestone w r
  | .pay sender => (handlePayMilestone w sender).1
  | .submit => handleSubmitMilestone w

/-- Run a sequence of Coordinator actions. -/
def coordRun (w : CoordState) (ops : List CoordOp) : CoordState :=
  ops.foldl coordStep w

/-! ## Helper lemmas about slot sums -/

theorem paidSum_nil : paidSum [] = 0 := rfl

theorem paidSum_cons (m : Milestone) (t : List Milestone) :
    paidSum (m :: t) = (if m.isPaid then m.amount else 0) + paidSum t := by
  simp [paidSum]

theorem amountSum_nil : amountSum [] = 0 := rfl

theorem amountSum_cons (m : Milestone) (t : List Milestone) :
    amountSum (m :: t) = m.amount + amountSum t := by
  simp [amountSum]

theorem unpaidSum_cons (m : Milestone) (t : List Milestone) :
    unpaidSum (m :: t) =
      (if m.isPaid then 0 else m.amount) + unpaidSum t := by
  by_cases h : m.isPaid <;> simp [unpaidSum, List.filter_cons, h]

theorem paidSum_le_amountSum (ms : List Milestone) :
    paidSum ms ≤ amountSum ms := by
  induction ms with
  | nil => simp [paidSum_nil, amountSum_nil]
  | cons m t ih =>
    rw [paidSum_cons, amountSum_cons]
    have : (if m.isPaid then m.amount else 0) ≤ m.amount := by
      split <;> omega
    omega

theorem unpaidSum_add_paidSum (ms : List Milestone) :
    unpaidSum ms + paidSum ms = amountSum ms := by
  induction ms with
  | nil => simp [unpaidSum, paidSum_nil, amountSum_nil]
  | cons m t ih =>
    rw [unpaidSum_cons, paidSum_cons, amountSum_cons]
    by_cases h : m.isPaid <;> simp [h] <;> omega

theorem paidSum_set (l : List Milestone) (idx : Nat) (m m' : Milestone)
    (h : l[idx]? = some m) :
    paidSum (l.set idx m') + (if m.isPaid then m.amount else 0) =
      paidSum l + (if m'.isPaid then m'.amount else 0) := by
  induction l generalizing idx with
  | nil => simp at h
  | cons a t ih =>
    cases idx with
    | zero =>
      simp at h
      subst h
      simp [List.set, paidSum_cons]
      omega
    | succ n =>
      simp at h
      have := ih n h
      simp [List.set, paidSum_cons]
      omega

theorem amountSum_set (l : List Milestone) (idx : Nat) (m m' : Milestone)
    (h : l[idx]? = some m) (hamt : m'.amount = m.amount) :
    amountSum (l.set idx m') = amountSum l := by
  induction l generalizing idx with
  | nil => simp at h
  | cons a t ih =>
    cases idx with
    | zero =>
      simp at h
      subst h
      simp [List.set, amountSum_cons, hamt]
    | succ n =>
      simp at h
      have := ih n h
      simp [List.set, amountSum_cons]
      omega

theorem paidSum_set_unpaid (l : List Milestone) (idx : Nat) (m : Milestone)
    (h : l[idx]? = some m) (hm : m.isPaid = false) :
    paidSum l + m.amount ≤ amountSum l := by
  induction l generalizing idx with
  | nil => simp at h
  | cons a t ih =>
    cases idx with
    | zero =>
      simp at h
      subst h
      rw [paidSum_cons, amountSum_cons]
      simp [hm]
      have := paidSum_le_amountSum t
      omega
    | succ n =>
      simp at h
      have := ih n h
      rw [paidSum_cons, amountSum_cons]
      have ha : (if a.isPaid then a.amount else 0) ≤ a.amount := by
        split <;> omega
      omega

/-! ## Characterizations of the ledger operations -/

theorem exec_of_error (s : EscrowState) (op : Op) (e : LedgerError)
    (h : stepE s op = .error e) : exec s op = s := by
  simp [exec, h]

theorem exec_of_ok (s s' : EscrowState) (op : Op)
    (h : stepE s op = .ok s') : exec s op = s' := by
  simp [exec, h]

theorem opOk_iff (s : EscrowState) (op : Op) :
    opOk s op = true ↔ ∃ s', stepE s op = .ok s' := by
  unfold opOk
  cases h : stepE s op <;> simp

/-- The state produced by a successful `verifyMilestone`. -/
def verifiedUpdate (s : EscrowState) (idx : Nat) (m : Milestone)
    (hash : String) : EscrowState :=
  let m' : Milestone := { m with isVerified := true, verificationHash := hash }
  { s with milestones := s.milestones.set idx m' }

theorem verifyMilestone_ok_elim (s : EscrowState) (sender idx : Nat)
    (hash : String) (s' : EscrowState)
    (h : verifyMilestone s sender idx hash = .ok s') :
    ∃ m, s.milestones[idx]? = some m ∧ m.isPaid = false ∧
      m.isVerified = false ∧ sender = s.client ∧ s.isActive = true ∧
      s' = verifiedUpdate s idx m hash := by
  unfold verifyMilestone at h
  by_cases hs : sender = s.client
  · cases hA : s.isActive
    · rw [hA] at h; simp [hs] at h
    · rw [hA] at h
      cases hm : s.milestones[idx]?
      · rw [hm] at h; simp [hs] at h
      · rename_i m
        rw [hm] at h
        by_cases hp : m.isPaid = true
        · simp [hs, hp] at h
        · by_cases hv : m.isVerified = true
          · simp [hs, hp, hv] at h
          · refine ⟨m, rfl, by simpa using hp, by simpa using hv, hs, rfl, ?_⟩
            have hp' : m.isPaid = false := by simpa using hp
            have hv' : m.isVerified = false := by simpa using hv
            simp only [verifiedUpdate, hA, hp']
            simp [hs, hp', hv'] at h
            exact h.symm
  · simp [hs] at h

/-- The state produced by a successful `releaseMilestonePayment` on slot
`idx` holding milestone `m`. -/
def releasedUpdate (s : EscrowState) (idx : Nat) (m : Milestone) :
    EscrowState :=
  let m' : Milestone := { m with isPaid := true }
  { s with milestones := s.milestones.set idx m'
           balance := s.balance - m.amount
           freelancerReceived := s.freelancerReceived + m.amount }

theorem releaseMilestonePayment_ok_elim (s : EscrowState) (sender idx : Nat)
    (s' : EscrowState)
    (h : releaseMilestonePayment s sender idx = .ok s') :
    ∃ m, s.milestones[idx]? = some m ∧ m.isVerified = true ∧
      m.isPaid = false ∧ sender = s.client ∧ s.isActive = true ∧
      m.amount ≤ s.balance ∧ s' = releasedUpdate s idx m := by
  unfold releaseMilestonePayment markPaid payFreelancer at h
  by_cases hs : sender = s.client
  · cases hA : s.isActive
    · rw [hA] at h; simp [hs] at h
    · rw [hA] at h
      cases hm : s.milestones[idx]?
      · rw [hm] at h; simp [hs] at h
      · rename_i m
        rw [hm] at h
        by_cases hv : m.isVerified = true
        · by_cases hp : m.isPaid = true
          · simp [hs, hv, hp] at h
          · by_cases hb : m.amount ≤ s.balance
            · refine ⟨m, rfl, hv, by simpa using hp, hs, rfl, hb, ?_⟩
              simp [hs, hv, hp, hb, releasedUpdate, hA] at h ⊢
              exact h.symm
            · simp [hs, hv, hp, hb] at h
        · simp [hs, hv] at h
  · simp [hs] at h

theorem releaseMilestonePayment_notVerified (s : EscrowState)
    (sender idx : Nat) (m : Milestone) (hs : sender = s.client)
    (hA : s.isActive = true) (hm : s.milestones[idx]? = some m)
    (hv : m.isVerified = false) :
    releaseMilestonePayment s sender idx = .error .NotVerified := by
  unfold releaseMilestonePayment
  simp [hs, hA, hm, hv]

theorem releaseMilestonePayment_notActive (s : EscrowState)
    (sender idx : Nat) (hs : sender = s.client) (hA : s.isActive = false) :
    releaseMilestonePayment s sender idx = .error .NotActive := by
  unfold releaseMilestonePayment
  simp [hs, hA]

theorem verifyMilestone_notActive (s : EscrowState) (sender idx : Nat)
    (hash : String) (hs : sender = s.client) (hA : s.isActive = false) :
    verifyMilestone s sender idx hash = .error .NotActive := by
  unfold verifyMilestone
  simp [hs, hA]

theorem verifyMilestone_alreadyVerified (s : EscrowState) (sender idx : Nat)
    (hash : String) (m : Milestone) (hs : sender = s.client)
    (hA : s.isActive = true) (hm : s.milestones[idx]? = some m)
    (hp : m.isPaid = false) (hv : m.isVerified = true) :
    verifyMilestone s sender idx hash = .error .AlreadyVerified := by
  unfold verifyMilestone
  simp [hs, hA, hm, hp, hv]

theorem verifyMilestone_alreadyPaid (s : EscrowState) (sender idx : Nat)
    (hash : String) (m : Milestone) (hs : sender = s.client)
    (hA : s.isActive = true) (hm : s.milestones[idx]? = some m)
    (hp : m.isPaid = true) :
    verifyMilestone s sender idx hash = .error .AlreadyPaid := by
  unfold verifyMilestone
  simp [hs, hA, hm, hp]

theorem cancelEscrow_notActive (s : EscrowState) (sender : Nat)
    (hs : sender = s.client) (hA : s.isActive = false) :
    cancelEscrow s sender = .error .NotActive := by
  unfold cancelEscrow
  simp [hs, hA]

/-- The state produced by a successful `cancelEscrow`. -/
def cancelUpdate (s : EscrowState) : EscrowState :=
  { s with isActive := false
           balance := s.balance - unpaidSum s.milestones
           clientReceived := s.clientReceived + unpaidSum s.milestones }

theorem cancelEscrow_ok_elim (s : EscrowState) (sender : Nat)
    (s' : EscrowState) (h : cancelEscrow s sender = .ok s') :
    sender = s.client ∧ s.isActive = true ∧
      unpaidSum s.milestones ≤ s.balance ∧ s' = cancelUpdate s := by
  unfold cancelEscrow at h
  by_cases hs : sender = s.client
  · cases hA : s.isActive
    · rw [hA] at h; simp [hs] at h
    · rw [hA] at h
      by_cases hr : 0 < unpaidSum s.milestones
      · by_cases hb : unpaidSum s.milestones ≤ s.balance
        · simp [hs, hr, hb] at h
          exact ⟨hs, rfl, hb, by simp [cancelUpdate]; exact h.symm⟩
        · simp [hs, hr, hb] at h
      · simp [hs, hr] at h
        have hz : unpaidSum s.milestones = 0 := by omega
        refine ⟨hs, rfl, by omega, ?_⟩
        simp [cancelUpdate, hz]
        exact h.symm
  · simp [hs] at h

/-- The state produced by a successful `depositFunds` that moved `v` of the
payment asset into the contract. -/
def fundedUpdate (s : EscrowState) (v : Nat) : EscrowState :=
  { s with isActive := true, balance := s.balance + v }

theorem depositFunds_native_ok_iff (s : EscrowState) (sender v : Nat)
    (s' : EscrowState) (hnat : s.paymentToken = 0) :
    depositFunds s sender v = .ok s' ↔
      sender = s.client ∧ s.isActive = false ∧ v = s.totalAmount ∧
        s' = fundedUpdate s v := by
  unfold depositFunds
  constructor
  · intro h
    by_cases hs : sender = s.client
    · cases hA : s.isActive
      · rw [hA] at h
        by_cases hv : v = s.totalAmount
        · simp [hs, hnat, hv] at h
          exact ⟨hs, rfl, hv, by simp [fundedUpdate, hnat, hv]; exact h.symm⟩
        · simp [hs, hnat, hv] at h
      · rw [hA] at h; simp [hs] at h
    · simp [hs] at h
  · rintro ⟨hs, hA, hv, rfl⟩
    simp [hs, hA, hnat, hv, fundedUpdate]

theorem depositFunds_alreadyFunded (s : EscrowState) (sender v : Nat)
    (hs : sender = s.client) (hA : s.isActive = true) :
    depositFunds s sender v = .error .AlreadyFunded := by
  unfold depositFunds
  simp [hs, hA]

theorem depositFunds_amountMismatch (s : EscrowState) (sender v : Nat)
    (hs : sender = s.client) (hA : s.isActive = false)
    (hnat : s.paymentToken = 0) (hv : v ≠ s.totalAmount) :
    depositFunds s sender v = .error .AmountMismatch := by
  unfold depositFunds
  simp [hs, hA, hnat, hv]

theorem depositFunds_ok_fields (s : EscrowState) (sender v : Nat)
    (s' : EscrowState) (h : depositFunds s sender v = .ok s') :
    s'.milestones = s.milestones ∧ s'.isActive = true ∧
      s'.client = s.client ∧ s'.totalAmount = s.totalAmount ∧
      s'.paymentToken = s.paymentToken ∧
      s'.freelancerReceived = s.freelancerReceived ∧
      s'.clientReceived = s.clientReceived := by
  unfold depositFunds at h
  by_cases hs : sender = s.client
  · cases hA : s.isActive
    · rw [hA] at h
      by_cases hn : s.paymentToken = 0
      · by_cases hv : v = s.totalAmount
        · simp [hs, hn, hv] at h
          subst h
          simp [hn]
        · simp [hs, hn, hv] at h
      · by_cases hz : v = 0
        · simp [hs, hn, hz] at h
          subst h
          simp [hn]
        · simp [hs, hn, hz] at h
    · rw [hA] at h; simp [hs] at h
  · simp [hs] at h

/-! ## Slot flags under the operations -/

theorem getElem?_set_some {l : List Milestone} {idx : Nat} {m m' : Milestone}
    (hm : l[idx]? = some m) : (l.set idx m')[idx]? = some m' :=
  List.getElem?_set_eq_of_lt m' (List.getElem?_eq_some.mp hm).1

theorem slotPaid_verifiedUpdate (s : EscrowState) (idx : Nat) (m : Milestone)
    (hash : String) (i : Nat) (hm : s.milestones[idx]? = some m) :
    slotPaid (verifiedUpdate s idx m hash) i = slotPaid s i := by
  unfold slotPaid verifiedUpdate
  by_cases hij : idx = i
  · subst hij
    rw [getElem?_set_some hm, hm]
  · simp only
    rw [List.getElem?_set_ne hij]

theorem slotVerified_verifiedUpdate_same (s : EscrowState) (idx : Nat)
    (m : Milestone) (hash : String) (hm : s.milestones[idx]? = some m) :
    slotVerified (verifiedUpdate s idx m hash) idx = true := by
  unfold slotVerified verifiedUpdate
  simp only
  rw [getElem?_set_some hm]

theorem slotVerified_verifiedUpdate_other (s : EscrowState) (idx : Nat)
    (m : Milestone) (hash : String) (i : Nat) (hij : idx ≠ i) :
    slotVerified (verifiedUpdate s idx m hash) i = slotVerified s i := by
  unfold slotVerified verifiedUpdate
  simp only
  rw [List.getElem?_set_ne hij]

theorem slotPaid_releasedUpdate_same (s : EscrowState) (idx : Nat)
    (m : Milestone) (hm : s.milestones[idx]? = some m) :
    slotPaid (releasedUpdate s idx m) idx = true := by
  unfold slotPaid releasedUpdate
  simp only
  rw [getElem?_set_some hm]

theorem slotPaid_releasedUpdate_other (s : EscrowState) (idx : Nat)
    (m : Milestone) (i : Nat) (hij : idx ≠ i) :
    slotPaid (releasedUpdate s idx m) i = slotPaid s i := by
  unfold slotPaid releasedUpdate
  simp only
  rw [List.getElem?_set_ne hij]

theorem slotVerified_releasedUpdate (s : EscrowState) (idx : Nat)
    (m : Milestone) (i : Nat) (hm : s.milestones[idx]? = some m) :
    slotVerified (releasedUpdate s idx m) i = slotVerified s i := by
  unfold slotVerified releasedUpdate
  by_cases hij : idx = i
  · subst hij
    rw [getElem?_set_some hm, hm]
  · simp only
    rw [List.getElem?_set_ne hij]

/-- A paid slot stays paid under every transaction. -/
theorem slotPaid_exec (s : EscrowState) (op : Op) (i : Nat)
    (h : slotPaid s i = true) : slotPaid (exec s op) i = true := by
  cases hE : stepE s op with
  | error e => rw [exec_of_error s op e hE]; exact h
  | ok s' =>
    rw [exec_of_ok s s' op hE]
    cases op with
    | fund sender v =>
      have hf := depositFunds_ok_fields s sender v s' hE
      unfold slotPaid
      rw [hf.1]
      exact h
    | verify sender idx hash =>
      obtain ⟨m, hm, _, _, _, _, hs'⟩ :=
        verifyMilestone_ok_elim s sender idx hash s' hE
      rw [hs', slotPaid_verifiedUpdate s idx m hash i hm]
      exact h
    | release sender idx =>
      obtain ⟨m, hm, _, _, _, _, _, hs'⟩ :=
        releaseMilestonePayment_ok_elim s sender idx s' hE
      rw [hs']
      by_cases hij : idx = i
      · subst hij
        exact slotPaid_releasedUpdate_same s idx m hm
      · rw [slotPaid_releasedUpdate_other s idx m i hij]
        exact h
    | cancel sender =>
      have hc := cancelEscrow_ok_elim s sender s' hE
      rw [hc.2.2.2]
      unfold slotPaid cancelUpdate
      exact h

/-- A slot can only become verified through a successful `verify` of that
slot. -/
theorem slotVerified_exec_cases (s : EscrowState) (op : Op) (i : Nat)
    (h : slotVerified (exec s op) i = true) :
    slotVerified s i = true ∨
      ∃ sv hv, op = Op.verify sv i hv ∧ opOk s op = true := by
  cases hE : stepE s op with
  | error e => rw [exec_of_error s op e hE] at h; exact Or.inl h
  | ok s' =>
    rw [exec_of_ok s s' op hE] at h
    cases op with
    | fund sender v =>
      have hf := depositFunds_ok_fields s sender v s' hE
      unfold slotVerified at h
      rw [hf.1] at h
      exact Or.inl h
    | verify sender idx hash =>
      by_cases hij : idx = i
      · subst hij
        refine Or.inr ⟨sender, hash, rfl, ?_⟩
        rw [opOk_iff]
        exact ⟨s', hE⟩
      · obtain ⟨m, hm, _, _, _, _, hs'⟩ :=
          verifyMilestone_ok_elim s sender idx hash s' hE
        rw [hs', slotVerified_verifiedUpdate_other s idx m hash i hij] at h
        exact Or.inl h
    | release sender idx =>
      obtain ⟨m, hm, _, _, _, _, _, hs'⟩ :=
        releaseMilestonePayment_ok_elim s sender idx s' hE
      rw [hs', slotVerified_releasedUpdate s idx m i hm] at h
      exact Or.inl h
    | cancel sender =>
      have hc := cancelEscrow_ok_elim s sender s' hE
      rw [hc.2.2.2] at h
      unfold slotVerified cancelUpdate at h
      exact Or.inl h

/-- A successful release of slot `i` found the slot verified. -/
theorem release_ok_slotVerified (s : EscrowState) (sender i : Nat)
    (s' : EscrowState) (h : releaseMilestonePayment s sender i = .ok s') :
    slotVerified s i = true := by
  obtain ⟨m, hm, hv, _, _, _, _, _⟩ :=
    releaseMilestonePayment_ok_elim s sender i s' h
  unfold slotVerified
  rw [hm]
  exact hv

/-- A successful release of slot `i` found the slot unpaid. -/
theorem release_ok_slotUnpaid (s : EscrowState) (sender i : Nat)
    (s' : EscrowState) (h : releaseMilestonePayment s sender i = .ok s') :
    slotPaid s i = false := by
  obtain ⟨m, hm, _, hp, _, _, _, _⟩ :=
    releaseMilestonePayment_ok_elim s sender i s' h
  unfold slotPaid
  rw [hm]
  exact hp

/-- A successful release leaves the slot paid. -/
theorem release_ok_slotPaid (s : EscrowState) (sender i : Nat)
    (s' : EscrowState) (h : releaseMilestonePayment s sender i = .ok s') :
    slotPaid s' i = true := by
  obtain ⟨m, hm, _, _, _, _, _, hs'⟩ :=
    releaseMilestonePayment_ok_elim s sender i s' h
  rw [hs']
  exact slotPaid_releasedUpdate_same s i m hm

theorem run_append (s : EscrowState) (ops : List Op) (op : Op) :
    run s (ops ++ [op]) = exec (run s ops) op := by
  unfold run
  rw [List.foldl_append]
  rfl

/-- If slot `i` is verified after running `pre` but not initially, some
prefix position holds a `verify` of slot `i` that succeeded there. -/
theorem slotVerified_run_origin (s0 : EscrowState) (pre : List Op) (i : Nat)
    (h0 : slotVerified s0 i = false)
    (h : slotVerified (run s0 pre) i = true) :
    ∃ j sv hv, j < pre.length ∧ pre[j]? = some (.verify sv i hv) ∧
      opOk (run s0 (pre.take j)) (.verify sv i hv) = true := by
  induction pre using List.reverseRecOn with
  | nil =>
    unfold run at h
    simp at h
    rw [h0] at h
    cases h
  | append_singleton pre op ih =>
    rw [run_append] at h
    rcases slotVerified_exec_cases (run s0 pre) op i h with hPrev | hNow
    · obtain ⟨j, sv, hv, hj, hops, hok⟩ := ih hPrev
      refine ⟨j, sv, hv, ?_, ?_, ?_⟩
      · simp
        omega
      · rw [List.getElem?_append]
        rw [if_pos hj]
        exact hops
      · rw [List.take_append_of_le_length (Nat.le_of_lt hj)]
        exact hok
    · obtain ⟨sv, hv, hop, hok⟩ := hNow
      subst hop
      refine ⟨pre.length, sv, hv, by simp, ?_, ?_⟩
      · simp [List.getElem?_append]
      · rw [List.take_left]
        exact hok

/-! ## Counting successful releases of one slot -/

/-- Whether an operation is a release of slot `i`. -/
def isReleaseOf (op : Op) (i : Nat) : Bool :=
  match op with
  | .release _ j => j = i
  | _ => false

/-- The number of successful releases of slot `i` along a trace. -/
def releaseSuccessCount (s : EscrowState) (ops : List Op) (i : Nat) : Nat :=
  match ops with
  | [] => 0
  | op :: rest =>
    (if isReleaseOf op i && opOk s op then 1 else 0) +
      releaseSuccessCount (exec s op) rest i

theorem releaseSuccessCount_of_paid (s : EscrowState) (ops : List Op)
    (i : Nat) (h : slotPaid s i = true) :
    releaseSuccessCount s ops i = 0 := by
  induction ops generalizing s with
  | nil => rfl
  | cons op rest ih =>
    unfold releaseSuccessCount
    have hz : (isReleaseOf op i && opOk s op) = false := by
      cases op with
      | release sv j =>
        by_cases hji : j = i
        · subst hji
          cases hk : opOk s (.release sv j) with
          | false => simp [hk]
          | true =>
            rw [opOk_iff] at hk
            obtain ⟨s', hs'⟩ := hk
            have := release_ok_slotUnpaid s sv j s' hs'
            rw [h] at this
            cases this
        · simp [isReleaseOf, hji]
      | fund sv v => simp [isReleaseOf]
      | verify sv j hv => simp [isReleaseOf]
      | cancel sv => simp [isReleaseOf]
    rw [hz]
    simp only [if_false, Bool.false_eq_true]
    rw [ih (exec s op) (slotPaid_exec s op i h)]

/-- Over any trace, slot `i` is successfully released at most once. -/
theorem releaseSuccessCount_le_one (s : EscrowState) (ops : List Op)
    (i : Nat) : releaseSuccessCount s ops i ≤ 1 := by
  induction ops generalizing s with
  | nil => simp [releaseSuccessCount]
  | cons op rest ih =>
    unfold releaseSuccessCount
    cases hc : (isReleaseOf op i && opOk s op) with
    | false => simpa using ih (exec s op)
    | true =>
      simp only [if_true]
      have hrel : ∃ sv, op = Op.release sv i := by
        cases op with
        | release sv j =>
          simp [isReleaseOf] at hc
          exact ⟨sv, by rw [hc.1]⟩
        | fund sv v => simp [isReleaseOf] at hc
        | verify sv j hv => simp [isReleaseOf] at hc
        | cancel sv => simp [isReleaseOf] at hc
      obtain ⟨sv, rfl⟩ := hrel
      have hok : opOk s (.release sv i) = true := by
        simp [isReleaseOf] at hc
        exact hc
      rw [opOk_iff] at hok
      obtain ⟨s', hs'⟩ := hok
      have hpaid : slotPaid (exec s (.release sv i)) i = true := by
        rw [exec_of_ok s s' _ hs']
        exact release_ok_slotPaid s sv i s' hs'
      rw [releaseSuccessCount_of_paid _ rest i hpaid]

/-! ## The freshly deployed state -/

theorem deployEscrow_elim (c f t : Nat) (amounts : List Nat)
    (s0 : EscrowState) (h : deployEscrow c f t amounts = some s0) :
    s0.client = c ∧ s0.freelancer = f ∧ s0.paymentToken = t ∧
      s0.totalAmount = amounts.sum ∧ s0.isActive = false ∧ s0.balance = 0 ∧
      s0.freelancerReceived = 0 ∧ s0.clientReceived = 0 ∧
      s0.milestones = amounts.map (fun a =>
        { amount := a, isPaid := false, isVerified := false,
          verificationHash := "" }) := by
  unfold deployEscrow at h
  by_cases h1 : c = 0
  · simp [h1] at h
  by_cases h2 : f = 0
  · simp [h1, h2] at h
  by_cases h3 : amounts.length = 0
  · simp [h1, h2, h3] at h
  by_cases h4 : amounts.all (fun a => 0 < a) = true
  · simp [h1, h2, h3, h4] at h
    subst h
    simp
  · simp [h1, h2, h3, h4] at h

theorem paidSum_fresh (amounts : List Nat) :
    paidSum (amounts.map (fun a =>
      { amount := a, isPaid := false, isVerified := false,
        verificationHash := "" })) = 0 := by
  induction amounts with
  | nil => rfl
  | cons a t ih => simpa [paidSum_cons] using ih

theorem amountSum_fresh (amounts : List Nat) :
    amountSum (amounts.map (fun a =>
      { amount := a, isPaid := false, isVerified := false,
        verificationHash := "" })) = amounts.sum := by
  induction amounts with
  | nil => rfl
  | cons a t ih => simp [amountSum_cons, ih]

theorem deployEscrow_slotVerified (c f t : Nat) (amounts : List Nat)
    (s0 : EscrowState) (h : deployEscrow c f t amounts = some s0) (i : Nat) :
    slotVerified s0 i = false := by
  have hms := (deployEscrow_elim c f t amounts s0 h).2.2.2.2.2.2.2.2
  unfold slotVerified
  rw [hms, List.getElem?_map]
  cases amounts[i]? <;> simp

/-! ## Further rejection lemmas -/

theorem opOk_of_error (s : EscrowState) (op : Op) (e : LedgerError)
    (h : stepE s op = .error e) : opOk s op = false := by
  simp [opOk, h]

theorem opOk_of_ok (s : EscrowState) (op : Op) (s' : EscrowState)
    (h : stepE s op = .ok s') : opOk s op = true := by
  simp [opOk, h]

theorem releaseMilestonePayment_alreadyPaid (s : EscrowState)
    (sender idx : Nat) (m : Milestone) (hs : sender = s.client)
    (hA : s.isActive = true) (hm : s.milestones[idx]? = some m)
    (hv : m.isVerified = true) (hp : m.isPaid = true) :
    releaseMilestonePayment s sender idx = .error .AlreadyPaid := by
  unfold releaseMilestonePayment
  simp [hs, hA, hm, hv, hp]

theorem verifyAndPayMilestone_ok_slotPaid (s : EscrowState)
    (sender idx : Nat) (hash : String) (s' : EscrowState)
    (h : verifyAndPayMilestone s sender idx hash = .ok s') :
    slotPaid s' idx = true := by
  unfold verifyAndPayMilestone at h
  by_cases hs : sender = s.client
  · subst hs
    by_cases hb : s.balance = 0
    · simp [hb] at h
    · simp only [hb, ne_eq, not_true_eq_false, if_false, ite_false,
        if_neg, ite_true] at h
      cases hv : verifyMilestone s s.client idx hash with
      | error e => simp [hv] at h
      | ok s1 =>
        simp only [hv] at h
        cases hr : releaseMilestonePayment s1 s.client idx with
        | error e => simp [hr] at h
        | ok s2 =>
          simp [hr] at h
          subst h
          exact release_ok_slotPaid s1 s.client idx _ hr
  · simp [hs] at h

/-! ## Concrete scenario states -/

/-- A deployed one-milestone escrow: client 1, freelancer 2, native asset,
one slot of amount 100. -/
def exEscrow : EscrowState :=
  { client := 1, freelancer := 2, paymentToken := 0, totalAmount := 100,
    isActive := false,
    milestones := [{ amount := 100, isPaid := false, isVerified := false,
                     verificationHash := "" }],
    balance := 0, freelancerReceived := 0, clientReceived := 0 }

/-- The escrow after the client funds it with 100. -/
def exFunded : EscrowState := exec exEscrow (.fund 1 100)

/-- The funded escrow after the client verifies slot 0. -/
def exVerifiedLedger : EscrowState := exec exFunded (.verify 1 0 "h")

/-- The verified escrow after the client releases slot 0. -/
def exReleased : EscrowState := exec exVerifiedLedger (.release 1 0)

/-- The funded escrow after the client cancels. -/
def exCancelled : EscrowState := exec exFunded (.cancel 1)

def exCommitA : Commit :=
  { sha := "a1b2c3d4e5", authorName := "alice", authorDate := "2025-01-01",
    message := "feat: first\nbody", htmlUrl := "urlA" }

def exCommitB : Commit :=
  { sha := "f6e5d4c3b2", authorName := "bob", authorDate := "2025-01-02",
    message := "fix: second", htmlUrl := "urlB" }

/-- A Coordinator world over the funded escrow: off-chain milestone 0 is
`submitted`, no logs or transactions yet. -/
def exWorld : CoordState :=
  { mstatus := .submitted, offAmount := 100, orderIndex := 0,
    verificationHash := "h", verifLogs := [], txRecords := [],
    ledger := exFunded }

/-- A world whose ledger slot 0 is already verified on-chain. -/
def exWorldVerified : CoordState :=
  { exWorld with mstatus := .verified, ledger := exVerifiedLedger }

/-- A world whose ledger slot 0 is already paid on-chain. -/
def exWorldPaid : CoordState :=
  { exWorld with mstatus := .paid, ledger := exReleased }

/-! ## C2 -/

/-- C2: on every deployed ledger and every transaction sequence, a `release`
of slot `i` that succeeds at position `k` is preceded by a `verify` of slot
`i` that succeeded at an earlier position of the same sequence; moreover on
any state whose slot `i` is unverified (client caller, active ledger, index
in range) `release` fails with `NotVerified` and the freelancer receives
nothing. -/
theorem release_requires_prior_verify
    (c f t : Nat) (amounts : List Nat) (s0 : EscrowState)
    (hdeploy : deployEscrow c f t amounts = some s0)
    (ops : List Op) (k sender i : Nat)
    (_hk : ops[k]? = some (.release sender i))
    (hok : opOk (run s0 (ops.take k)) (.release sender i) = true) :
    (∃ j sv hv, j < k ∧ ops[j]? = some (.verify sv i hv) ∧
      opOk (run s0 (ops.take j)) (.verify sv i hv) = true) ∧
    (∀ (s : EscrowState) (sd : Nat), slotVerified s i = false →
      sd = s.client → s.isActive = true → i < s.milestones.length →
      stepE s (.release sd i) = .error .NotVerified ∧
        (exec s (.release sd i)).freelancerReceived =
          s.freelancerReceived) := by
  constructor
  · have hver : slotVerified (run s0 (ops.take k)) i = true := by
      rw [opOk_iff] at hok
      obtain ⟨s', hs'⟩ := hok
      exact release_ok_slotVerified _ sender i s' hs'
    have h0 : slotVerified s0 i = false :=
      deployEscrow_slotVerified c f t amounts s0 hdeploy i
    obtain ⟨j, sv, hv, hj, hops, hokj⟩ :=
      slotVerified_run_origin s0 (ops.take k) i h0 hver
    have hjk : j < k := by
      have hlen := List.length_take k ops
      omega
    refine ⟨j, sv, hv, hjk, ?_, ?_⟩
    · have heq : (ops.take k)[j]? = ops[j]? := by
        simp [List.getElem?_take, hjk]
      rw [← heq]
      exact hops
    · have heq : (ops.take k).take j = ops.take j := by
        rw [List.take_take]
        rw [Nat.min_eq_left (Nat.le_of_lt hjk)]
      rw [← heq]
      exact hokj
  · intro s sd hunv hsd hact hlen
    have hm : s.milestones[i]? = some (s.milestones[i]) :=
      List.getElem?_eq_getElem hlen
    have hvm : (s.milestones[i]).isVerified = false := by
      unfold slotVerified at hunv
      rw [hm] at hunv
      exact hunv
    have herr := releaseMilestonePayment_notVerified s sd i
      (s.milestones[i]) hsd hact hm hvm
    exact ⟨herr, by rw [exec_of_error s (Op.release sd i) LedgerError.NotVerified herr]⟩

/-- C2 witness: on the funded but unverified one-milestone escrow,
`release(0)` fails with `NotVerified`. -/
theorem release_requires_prior_verify_witness :
    stepE exFunded (Op.release 1 0) = .error .NotVerified := by
  have h := release_requires_prior_verify 1 2 0 [100] exEscrow (by decide)
    [Op.fund 1 100, Op.verify 1 0 "h", Op.release 1 0] 2 1 0
    (by decide) (by decide)
  exact (h.2 exFunded 1 (by decide) (by decide) (by decide) (by decide)).1

/-! ## C3 -/

/-- The conservation invariant carried along verify/release traces of a
ledger funded with `v`. -/
def ConsInv (v : Nat) (s : EscrowState) : Prop :=
  s.freelancerReceived = paidSum s.milestones ∧
  s.balance + paidSum s.milestones = v ∧
  amountSum s.milestones = v ∧
  s.clientReceived = 0

theorem consInv_exec_verify (v : Nat) (s : EscrowState) (sn i : Nat)
    (hsh : String) (h : ConsInv v s) :
    ConsInv v (exec s (.verify sn i hsh)) := by
  cases hE : stepE s (.verify sn i hsh) with
  | error e => rw [exec_of_error _ _ _ hE]; exact h
  | ok s' =>
    rw [exec_of_ok _ _ _ hE]
    obtain ⟨m, hm, hp, hvrf, hs, hA, hs'⟩ :=
      verifyMilestone_ok_elim s sn i hsh s' hE
    obtain ⟨h1, h2, h3, h4⟩ := h
    have hps := paidSum_set s.milestones i m
      { m with isVerified := true, verificationHash := hsh } hm
    have has := amountSum_set s.milestones i m
      { m with isVerified := true, verificationHash := hsh } hm rfl
    subst hs'
    unfold ConsInv verifiedUpdate
    simp only [hp] at hps has ⊢
    simp at hps
    refine ⟨?_, ?_, ?_, ?_⟩
    · omega
    · omega
    · omega
    · exact h4

theorem consInv_exec_release (v : Nat) (s : EscrowState) (sn i : Nat)
    (h : ConsInv v s) : ConsInv v (exec s (.release sn i)) := by
  cases hE : stepE s (.release sn i) with
  | error e => rw [exec_of_error _ _ _ hE]; exact h
  | ok s' =>
    rw [exec_of_ok _ _ _ hE]
    obtain ⟨m, hm, hvm, hp, hs, hA, hble, hs'⟩ :=
      releaseMilestonePayment_ok_elim s sn i s' hE
    obtain ⟨h1, h2, h3, h4⟩ := h
    have hps := paidSum_set s.milestones i m { m with isPaid := true } hm
    simp [hp] at hps
    have has := amountSum_set s.milestones i m { m with isPaid := true }
      hm rfl
    subst hs'
    unfold ConsInv releasedUpdate
    simp only
    refine ⟨?_, ?_, ?_, ?_⟩
    · omega
    · omega
    · omega
    · exact h4

theorem consInv_run_verify_release (v : Nat) (s : EscrowState)
    (h : ConsInv v s) (ops : List Op)
    (hops : ∀ op ∈ ops, (∃ sn i hsh, op = Op.verify sn i hsh) ∨
      (∃ sn i, op = Op.release sn i)) :
    ConsInv v (run s ops) := by
  induction ops generalizing s with
  | nil => exact h
  | cons op rest ih =>
    have hrest : ∀ op ∈ rest, (∃ sn i hsh, op = Op.verify sn i hsh) ∨
        (∃ sn i, op = Op.release sn i) :=
      fun o ho => hops o (List.mem_cons_of_mem _ ho)
    rcases hops op (List.mem_cons_self op rest) with
        ⟨sn, i, hsh, rfl⟩ | ⟨sn, i, rfl⟩
    · show ConsInv v (run (exec s (.verify sn i hsh)) rest)
      exact ih (exec s (.verify sn i hsh))
        (consInv_exec_verify v s sn i hsh h) hrest
    · show ConsInv v (run (exec s (.release sn i)) rest)
      exact ih (exec s (.release sn i)) (consInv_exec_release v s sn i h)
        hrest

/-- C3: after funding a deployed native-asset ledger with `v`, over any
interleaving of verify and release transactions (verify is what makes
releases able to succeed; neither fund nor cancel occurs in between, as in
the claim) the cumulative amount transferred to the freelancer never
exceeds `v`, and a successful `cancel` afterwards returns to the client
exactly `v` minus the sum of the paid slot amounts. -/
theorem fund_release_cancel_conservation
    (c f : Nat) (amounts : List Nat) (s0 s1 : EscrowState) (v : Nat)
    (hdeploy : deployEscrow c f 0 amounts = some s0)
    (hfund : depositFunds s0 c v = .ok s1)
    (ops : List Op)
    (hops : ∀ op ∈ ops, (∃ sn i hsh, op = Op.verify sn i hsh) ∨
      (∃ sn i, op = Op.release sn i)) :
    (run s1 ops).freelancerReceived ≤ v ∧
    (∀ (sender : Nat) (s2 : EscrowState),
      cancelEscrow (run s1 ops) sender = .ok s2 →
      s2.clientReceived + paidSum (run s1 ops).milestones = v) := by
  obtain ⟨hcl, hfl, hpt, hta, hA0, hb0, hfr0, hcr0, hms⟩ :=
    deployEscrow_elim _ _ _ _ _ hdeploy
  rw [depositFunds_native_ok_iff s0 c v s1 hpt] at hfund
  obtain ⟨hs, hA, hveq, hs1⟩ := hfund
  have hInv1 : ConsInv v s1 := by
    subst hs1
    unfold ConsInv fundedUpdate
    simp only
    rw [hms, paidSum_fresh, amountSum_fresh]
    omega
  have hInvR := consInv_run_verify_release v s1 hInv1 ops hops
  obtain ⟨h1, h2, h3, h4⟩ := hInvR
  constructor
  · have := paidSum_le_amountSum (run s1 ops).milestones
    omega
  · intro sender s2 hcancel
    obtain ⟨hsc, hAc, hbc, hs2⟩ := cancelEscrow_ok_elim _ sender s2 hcancel
    have hup := unpaidSum_add_paidSum (run s1 ops).milestones
    subst hs2
    unfold cancelUpdate
    simp only
    omega

/-- C3 witness: funding the one-milestone escrow with 100, verifying and
releasing slot 0 transfers exactly 100 to the freelancer, and the
conservation theorem bounds it by the funded 100. -/
theorem fund_release_cancel_conservation_witness :
    (run exFunded [Op.verify 1 0 "h", Op.release 1 0]).freelancerReceived
        = 100 ∧
    (run exFunded [Op.verify 1 0 "h", Op.release 1 0]).freelancerReceived
        ≤ 100 := by
  have h := fund_release_cancel_conservation 1 2 [100] exEscrow exFunded 100
    (by decide) (by rfl) [Op.verify 1 0 "h", Op.release 1 0]
    (by
      intro op hop
      simp at hop
      rcases hop with rfl | rfl
      · exact Or.inl ⟨1, 0, "h", rfl⟩
      · exact Or.inr ⟨1, 0, rfl⟩)
  exact ⟨by decide, h.1⟩

/-! ## C10 -/

/-- C10: a successful `releaseMilestonePayment` passes through the
intermediate `markPaid` state, in which the slot is already flagged paid, so
a reentrant call at the moment of the outward transfer — and any repeated
call afterwards — is rejected with `AlreadyPaid`; along any trace each slot
is successfully released at most once. -/
theorem release_paid_before_transfer
    (s : EscrowState) (sender i : Nat) (s' : EscrowState)
    (h : releaseMilestonePayment s sender i = .ok s') :
    slotPaid (markPaid s i) i = true ∧
    releaseMilestonePayment (markPaid s i) sender i =
      .error .AlreadyPaid ∧
    releaseMilestonePayment s' sender i = .error .AlreadyPaid ∧
    (∀ (t : EscrowState) (ops : List Op) (j : Nat),
      releaseSuccessCount t ops j ≤ 1) := by
  obtain ⟨m, hm, hvm, hp, hs, hA, hble, hs'⟩ :=
    releaseMilestonePayment_ok_elim s sender i s' h
  have hmark : (markPaid s i).milestones[i]? =
      some { m with isPaid := true } := by
    unfold markPaid
    rw [hm]
    exact getElem?_set_some hm
  have hmc : (markPaid s i).client = s.client := by
    unfold markPaid
    rw [hm]
  have hma : (markPaid s i).isActive = s.isActive := by
    unfold markPaid
    rw [hm]
  refine ⟨?_, ?_, ?_, ?_⟩
  · unfold slotPaid
    rw [hmark]
  · exact releaseMilestonePayment_alreadyPaid (markPaid s i) sender i
      { m with isPaid := true } (by rw [hmc]; exact hs)
      (by rw [hma]; exact hA) hmark (by simpa using hvm) rfl
  · have hrel : s'.milestones[i]? = some { m with isPaid := true } := by
      rw [hs']
      unfold releasedUpdate
      simp only
      exact getElem?_set_some hm
    have hrc : s'.client = s.client := by rw [hs']; rfl
    have hra : s'.isActive = s.isActive := by rw [hs']; rfl
    exact releaseMilestonePayment_alreadyPaid s' sender i
      { m with isPaid := true } (by rw [hrc]; exact hs)
      (by rw [hra]; exact hA) hrel (by simpa using hvm) rfl
  · intro t ops j
    exact releaseSuccessCount_le_one t ops j

/-- C10 witness: on the verified one-milestone escrow, a release call made
from the intermediate marked-paid state is rejected with `AlreadyPaid`. -/
theorem release_paid_before_transfer_witness :
    releaseMilestonePayment (markPaid exVerifiedLedger 0) 1 0 =
      .error .AlreadyPaid := by
  exact (release_paid_before_transfer exVerifiedLedger 1 0 exReleased
    (by rfl)).2.1

/-! ## C4 -/

/-- C4 counterexample: on the deployed one-milestone escrow the trace
fund;cancel;fund has a successful cancel at position 1 followed by a
successful fund at position 2, refuting that after a successful cancel
every subsequent operation fails (and hence that `active` becomes true at
most once). -/
theorem cancel_terminal_counterexample :
    ¬ (∀ (ops : List Op) (k sndr : Nat),
        ops[k]? = some (Op.cancel sndr) →
        opOk (run exEscrow (ops.take k)) (Op.cancel sndr) = true →
        ∀ (l : Nat) (op : Op), k < l → ops[l]? = some op →
          opOk (run exEscrow (ops.take l)) op = false) := by
  intro hclaim
  have h := hclaim [Op.fund 1 100, Op.cancel 1, Op.fund 1 100] 1 1
    (by decide) (by decide) 2 (Op.fund 1 100) (by decide) (by decide)
  have ht : opOk
      (run exEscrow ([Op.fund 1 100, Op.cancel 1, Op.fund 1 100].take 2))
      (Op.fund 1 100) = true := by decide
  rw [ht] at h
  exact Bool.noConfusion h

/-- C4 (amended): after a successful cancel the ledger is inactive and every
verify, release and second cancel is rejected, but fund is not: a deposit of
the total amount by the client succeeds again from the cancelled state (the
contract stores no terminal cancelled flag), so `active` can become true
more than once over the ledger's lifetime. -/
theorem cancel_disables_all_but_fund
    (s : EscrowState) (sender : Nat) (s' : EscrowState)
    (h : cancelEscrow s sender = .ok s') :
    s'.isActive = false ∧
    (∀ sv i hv, opOk s' (.verify sv i hv) = false) ∧
    (∀ sv i, opOk s' (.release sv i) = false) ∧
    (∀ sv, opOk s' (.cancel sv) = false) ∧
    (s.paymentToken = 0 →
      opOk s' (.fund s'.client s'.totalAmount) = true) := by
  obtain ⟨hs, hA, hb, hs'⟩ := cancelEscrow_ok_elim s sender s' h
  have hA' : s'.isActive = false := by rw [hs']; rfl
  have hp' : s'.paymentToken = s.paymentToken := by rw [hs']; rfl
  refine ⟨hA', ?_, ?_, ?_, ?_⟩
  · intro sv i hv
    by_cases hsv : sv = s'.client
    · exact opOk_of_error _ _ _
        (verifyMilestone_notActive s' sv i hv hsv hA')
    · apply opOk_of_error _ _ LedgerError.OnlyClient
      show verifyMilestone s' sv i hv = _
      unfold verifyMilestone
      simp [hsv]
  · intro sv i
    by_cases hsv : sv = s'.client
    · exact opOk_of_error _ _ _
        (releaseMilestonePayment_notActive s' sv i hsv hA')
    · apply opOk_of_error _ _ LedgerError.OnlyClient
      show releaseMilestonePayment s' sv i = _
      unfold releaseMilestonePayment
      simp [hsv]
  · intro sv
    by_cases hsv : sv = s'.client
    · exact opOk_of_error _ _ _ (cancelEscrow_notActive s' sv hsv hA')
    · apply opOk_of_error _ _ LedgerError.OnlyClient
      show cancelEscrow s' sv = _
      unfold cancelEscrow
      simp [hsv]
  · intro hnat
    apply opOk_of_ok _ _ (fundedUpdate s' s'.totalAmount)
    show depositFunds s' s'.client s'.totalAmount = _
    rw [depositFunds_native_ok_iff s' s'.client s'.totalAmount _
      (by rw [hp']; exact hnat)]
    exact ⟨rfl, hA', rfl, rfl⟩

/-- C4 witness: from the cancelled one-milestone escrow a second fund of the
total amount succeeds. -/
theorem cancel_disables_all_but_fund_witness :
    opOk exCancelled (Op.fund exCancelled.client exCancelled.totalAmount) =
      true := by
  exact (cancel_disables_all_but_fund exFunded 1 exCancelled
    (by rfl)).2.2.2.2 (by decide)

/-! ## C8 -/

/-- C8 counterexample: on the deployed one-milestone escrow, fund succeeds
at position 2 of fund;cancel;fund although a fund already succeeded at
position 0, refuting that fund succeeds only while the ledger is in the
never-funded `Unfunded` state. -/
theorem fund_only_while_unfunded_counterexample :
    ¬ (∀ (ops : List Op) (k sndr v : Nat),
        ops[k]? = some (Op.fund sndr v) →
        opOk (run exEscrow (ops.take k)) (Op.fund sndr v) = true →
        ∀ (j sv vv : Nat), j < k → ops[j]? = some (Op.fund sv vv) →
          opOk (run exEscrow (ops.take j)) (Op.fund sv vv) = false) := by
  intro hclaim
  have h := hclaim [Op.fund 1 100, Op.cancel 1, Op.fund 1 100] 2 1 100
    (by decide) (by decide) 0 1 100 (by decide) (by decide)
  have ht : opOk
      (run exEscrow ([Op.fund 1 100, Op.cancel 1, Op.fund 1 100].take 0))
      (Op.fund 1 100) = true := by decide
  rw [ht] at h
  exact Bool.noConfusion h

/-- C8 (amended): on a native-asset ledger `depositFunds` succeeds exactly
when called by the client on an inactive ledger — whether never funded or
previously cancelled — with a transferred value equal to the total fixed at
construction, and then activates the ledger; calling it while active fails
`AlreadyFunded`, a wrong value fails `AmountMismatch`, every rejection
reverts leaving the state unchanged, and at construction the total equals
the sum of the slot amounts. -/
theorem fund_preconditions
    (s : EscrowState) (sender v : Nat) (hnat : s.paymentToken = 0) :
    (∀ s', depositFunds s sender v = .ok s' ↔
      (sender = s.client ∧ s.isActive = false ∧ v = s.totalAmount ∧
        s' = fundedUpdate s v)) ∧
    (fundedUpdate s v).isActive = true ∧
    (sender = s.client → s.isActive = true →
      depositFunds s sender v = .error .AlreadyFunded) ∧
    (sender = s.client → s.isActive = false → v ≠ s.totalAmount →
      depositFunds s sender v = .error .AmountMismatch) ∧
    (∀ e, stepE s (.fund sender v) = .error e →
      exec s (.fund sender v) = s) ∧
    (∀ (c f t : Nat) (amounts : List Nat) (s0 : EscrowState),
      deployEscrow c f t amounts = some s0 →
      s0.totalAmount = amountSum s0.milestones) := by
  refine ⟨?_, rfl, ?_, ?_, ?_, ?_⟩
  · intro s'
    exact depositFunds_native_ok_iff s sender v s' hnat
  · intro hs hA
    exact depositFunds_alreadyFunded s sender v hs hA
  · intro hs hA hv
    exact depositFunds_amountMismatch s sender v hs hA hnat hv
  · intro e he
    exact exec_of_error s _ e he
  · intro c f t amounts s0 hd
    obtain ⟨_, _, _, hta, _, _, _, _, hms⟩ := deployEscrow_elim _ _ _ _ _ hd
    rw [hta, hms, amountSum_fresh]

/-- C8 witness: funding the deployed one-milestone escrow with exactly 100
succeeds and activates it. -/
theorem fund_preconditions_witness :
    depositFunds exEscrow 1 100 = Except.ok (fundedUpdate exEscrow 100) := by
  exact ((fund_preconditions exEscrow 1 100 (by decide)).1
    (fundedUpdate exEscrow 100)).mpr ⟨by decide, by decide, by decide, rfl⟩

/-! ## Coordinator step facts -/

theorem handleVerifyMilestone_spec (w : CoordState) (r : OracleBody) :
    (handleVerifyMilestone w r).verifLogs =
      w.verifLogs ++ [mkVerificationLog r] ∧
    (r.verified = false → (handleVerifyMilestone w r).mstatus = w.mstatus) ∧
    (r.verified = true → (handleVerifyMilestone w r).mstatus = .verified) ∧
    (handleVerifyMilestone w r).ledger = w.ledger ∧
    (handleVerifyMilestone w r).orderIndex = w.orderIndex := by
  unfold handleVerifyMilestone
  by_cases hr : r.verified = true
  · simp [hr]
  · simp [hr]

/-! ## C1 -/

/-- C1 counterexample: from the funded world whose ledger slot 0 is
unverified, a positive github verdict makes `handleVerifyMilestone` set the
off-chain status to `verified` while the ledger slot is still unverified —
the off-chain record runs ahead of the Ledger, refuting the conservative
lag for the `verified` state. -/
theorem offchain_verified_before_ledger_counterexample :
    exWorld.orderIndex = 0 ∧
    (handleVerifyMilestone exWorld
      (githubOracle 200 [exCommitA] 1).body).mstatus =
      MilestoneStatus.verified ∧
    slotVerified (handleVerifyMilestone exWorld
      (githubOracle 200 [exCommitA] 1).body).ledger 0 = false := by
  decide

/-- C1 (amended): the conservative lag holds for the `paid` state only:
whenever off-chain `paid` implies the ledger slot is paid, it still does
after any sequence of Coordinator actions, because `handlePayMilestone`
marks the milestone paid only after the on-chain verify-and-release
succeeded — while the off-chain `verified` state can run ahead of the
Ledger (see the counterexample). -/
theorem offchain_paid_lags_ledger
    (w : CoordState) (ops : List CoordOp)
    (hInv : w.mstatus = .paid → slotPaid w.ledger w.orderIndex = true) :
    (coordRun w ops).mstatus = .paid →
      slotPaid (coordRun w ops).ledger (coordRun w ops).orderIndex =
        true := by
  induction ops generalizing w with
  | nil => exact hInv
  | cons op rest ih =>
    show (coordRun (coordStep w op) rest).mstatus = .paid → _
    apply ih
    cases op with
    | oracleVerify r =>
      intro hpaid
      unfold coordStep handleVerifyMilestone at hpaid ⊢
      by_cases hr : r.verified = true
      · simp [hr] at hpaid
      · simp [hr] at hpaid ⊢
        exact hInv hpaid
    | pay sender =>
      intro hpaid
      unfold coordStep handlePayMilestone at hpaid ⊢
      cases hv : verifyAndPayMilestone w.ledger sender w.orderIndex
          w.verificationHash with
      | ok s' =>
        simp [hv] at hpaid ⊢
        exact verifyAndPayMilestone_ok_slotPaid _ _ _ _ _ hv
      | error e =>
        simp [hv] at hpaid ⊢
        exact hInv hpaid
    | submit =>
      intro hpaid
      unfold coordStep handleSubmitMilestone at hpaid
      simp at hpaid

/-- C1 witness: a world already consistently paid stays consistent under
the empty action sequence. -/
theorem offchain_paid_lags_ledger_witness :
    slotPaid (coordRun exWorldPaid []).ledger
      (coordRun exWorldPaid []).orderIndex = true := by
  exact offchain_paid_lags_ledger exWorldPaid [] (by decide) (by decide)

/-! ## C5 -/

/-- C5 counterexample: with ledger slot 0 already verified on-chain (the
crash-retry situation), `handlePayMilestone` surfaces the ledger's
`AlreadyVerified` rejection as an error and aborts the flow: the world is
unchanged, no transaction record is written and the milestone is not
marked paid — the rejection is not treated as an idempotent success. -/
theorem idempotent_retry_counterexample :
    handlePayMilestone exWorldVerified 1 =
      (exWorldVerified,
        some (PayError.txFailed LedgerError.AlreadyVerified)) ∧
    (handlePayMilestone exWorldVerified 1).1.mstatus ≠
      MilestoneStatus.paid ∧
    (handlePayMilestone exWorldVerified 1).1.txRecords = [] := by
  decide

/-- C5 (amended): the Coordinator surfaces `AlreadyVerified` and
`AlreadyPaid` like any other ledger rejection and aborts: when the slot is
already paid the flow returns the surfaced `AlreadyPaid`, and when it is
already verified but unpaid it returns the surfaced `AlreadyVerified`,
each leaving the world unchanged, so a retried attempt does not complete
the flow. -/
theorem already_errors_surfaced
    (w : CoordState) (sender : Nat)
    (hs : sender = w.ledger.client) (hA : w.ledger.isActive = true)
    (hb : w.ledger.balance ≠ 0) :
    (slotPaid w.ledger w.orderIndex = true →
      handlePayMilestone w sender =
        (w, some (PayError.txFailed LedgerError.AlreadyPaid))) ∧
    (slotPaid w.ledger w.orderIndex = false →
     slotVerified w.ledger w.orderIndex = true →
      handlePayMilestone w sender =
        (w, some (PayError.txFailed LedgerError.AlreadyVerified))) := by
  subst hs
  constructor
  · intro hp
    unfold slotPaid at hp
    have hm : ∃ m, w.ledger.milestones[w.orderIndex]? = some m ∧
        m.isPaid = true := by
      cases hq : w.ledger.milestones[w.orderIndex]? with
      | none => rw [hq] at hp; exact Bool.noConfusion hp
      | some m => rw [hq] at hp; exact ⟨m, rfl, hp⟩
    obtain ⟨m, hq, hmp⟩ := hm
    have hv := verifyMilestone_alreadyPaid w.ledger w.ledger.client
      w.orderIndex w.verificationHash m rfl hA hq hmp
    unfold handlePayMilestone verifyAndPayMilestone
    simp [hb, hv]
  · intro hp hver
    unfold slotPaid at hp
    unfold slotVerified at hver
    have hm : ∃ m, w.ledger.milestones[w.orderIndex]? = some m ∧
        m.isPaid = false ∧ m.isVerified = true := by
      cases hq : w.ledger.milestones[w.orderIndex]? with
      | none => rw [hq] at hver; exact Bool.noConfusion hver
      | some m => rw [hq] at hp hver; exact ⟨m, rfl, hp, hver⟩
    obtain ⟨m, hq, hmp, hmv⟩ := hm
    have hv := verifyMilestone_alreadyVerified w.ledger w.ledger.client
      w.orderIndex w.verificationHash m rfl hA hq hmp hmv
    unfold handlePayMilestone verifyAndPayMilestone
    simp [hb, hv]

/-- A two-milestone escrow (slots of 60 and 40) with slot 0 paid: the
contract still holds 40. -/
def exLedger2Paid : EscrowState :=
  run { client := 1, freelancer := 2, paymentToken := 0, totalAmount := 100,
        isActive := false,
        milestones := [{ amount := 60, isPaid := false, isVerified := false,
                         verificationHash := "" },
                       { amount := 40, isPaid := false, isVerified := false,
                         verificationHash := "" }],
        balance := 0, freelancerReceived := 0, clientReceived := 0 }
      [.fund 1 100, .verify 1 0 "h", .release 1 0]

/-- The Coordinator world over that two-milestone ledger. -/
def exWorld2Paid : CoordState :=
  { mstatus := .paid, offAmount := 60, orderIndex := 0,
    verificationHash := "h", verifLogs := [], txRecords := [],
    ledger := exLedger2Paid }

/-- C5 witness: on the two-milestone world whose slot 0 is already paid,
the payment flow aborts with the surfaced `AlreadyPaid`. -/
theorem already_errors_surfaced_witness :
    handlePayMilestone exWorld2Paid 1 =
      (exWorld2Paid, some (PayError.txFailed LedgerError.AlreadyPaid)) := by
  exact (already_errors_surfaced exWorld2Paid 1 (by decide) (by decide)
    (by decide)).1 (by decide)

/-! ## C6 -/

/-- C6 counterexample: two divergences from the claim that every
verification attempt appends exactly one record whose outcome for a
negative verdict is `success` with `verified:false`.  First, the github
branch logs a negative verdict (2 commits against threshold 3) with
outcome `failed`, not `success` (the milestone status is indeed
unchanged).  Second, a manual verification attempt appends no verification
record at all, yet marks the milestone verified. -/
theorem negative_verdict_outcome_counterexample :
    ((handleVerifyMilestone exWorld
        (githubOracle 200 [exCommitA, exCommitB] 3).body).verifLogs.map
      VerificationLog.status) = [LogStatus.failed] ∧
    LogStatus.failed ≠ LogStatus.success ∧
    (handleVerifyMilestone exWorld
      (githubOracle 200 [exCommitA, exCommitB] 3).body).mstatus =
      exWorld.mstatus ∧
    (handleVerifyMilestoneManual exWorld).verifLogs = [] ∧
    (handleVerifyMilestoneManual exWorld).mstatus =
      MilestoneStatus.verified := by
  decide

/-- C6 (amended): an oracle-backed verification attempt — github or figma,
which behave identically — appends exactly one verification record
carrying the raw verdict, regardless of outcome; on a negative verdict
the record's outcome is `failed` (not `success`), the raw
`verified:false` is preserved in the record, and the off-chain milestone
status is left unchanged.  A manual verification attempt appends no
record at all and unconditionally marks the milestone verified. -/
theorem verification_attempt_logs_raw_verdict
    (w : CoordState) (r : OracleBody) :
    ((handleVerifyMilestone w r).verifLogs =
        w.verifLogs ++ [mkVerificationLog r] ∧
      (mkVerificationLog r).oracleVerified = r.verified ∧
      (r.verified = false →
        (handleVerifyMilestone w r).mstatus = w.mstatus ∧
        (mkVerificationLog r).status = .failed)) ∧
    ((handleVerifyMilestoneFigma w r).verifLogs =
        w.verifLogs ++ [mkVerificationLogFigma r] ∧
      (mkVerificationLogFigma r).oracleVerified = r.verified ∧
      (r.verified = false →
        (handleVerifyMilestoneFigma w r).mstatus = w.mstatus ∧
        (mkVerificationLogFigma r).status = .failed)) ∧
    ((handleVerifyMilestoneManual w).verifLogs = w.verifLogs ∧
      (handleVerifyMilestoneManual w).mstatus = .verified) := by
  refine ⟨?_, ?_, ?_⟩
  · obtain ⟨hlogs, hneg, _, _, _⟩ := handleVerifyMilestone_spec w r
    refine ⟨hlogs, rfl, ?_⟩
    intro hr
    refine ⟨hneg hr, ?_⟩
    unfold mkVerificationLog
    simp [hr]
  · unfold handleVerifyMilestoneFigma mkVerificationLogFigma
    by_cases hr : r.verified = true
    · simp [hr]
    · simp [hr]
  · exact ⟨rfl, rfl⟩

/-- C6 witness: the negative two-commit verdict leaves the off-chain
milestone status unchanged on the github branch. -/
theorem verification_attempt_logs_raw_verdict_witness :
    (handleVerifyMilestone exWorld
      (githubOracle 200 [exCommitA, exCommitB] 3).body).mstatus =
      exWorld.mstatus := by
  exact ((verification_attempt_logs_raw_verdict exWorld
    (githubOracle 200 [exCommitA, exCommitB] 3).body).1.2.2 (by decide)).1

/-! ## C7 -/

/-- C7 counterexample: for an upstream 403 the oracle replies HTTP 200 with
`verified:false` (plus an error string), and the Coordinator writes a
terminal `failed` verification record for this oracle-unreachable outcome —
refuting that no terminal verification record is written for it. -/
theorem oracle_unreachable_logged_counterexample :
    (githubOracle 403 [] 3).status = 200 ∧
    (githubOracle 403 [] 3).body.verified = false ∧
    ((handleVerifyMilestone exWorld
        (githubOracle 403 [] 3).body).verifLogs.map
      VerificationLog.status) = [LogStatus.failed] := by
  decide

/-- C7 (amended): a non-2xx upstream response yields an HTTP-200 oracle
reply whose body is payload-distinguishable from a plain negative verdict —
its `error` field is set, while every 2xx evaluation returns `error = none`
— but it is folded into `verified:false` at the HTTP level, and the
Coordinator ignores the distinction: it writes a terminal `failed`
verification record for the oracle-unreachable outcome (the milestone
status itself stays unchanged). -/
theorem oracle_error_logged_as_failed
    (st : Nat) (commits : List Commit) (t : Nat) (w : CoordState)
    (hbad : ¬ (200 ≤ st ∧ st < 300)) :
    (githubOracle st commits t).status = 200 ∧
    (githubOracle st commits t).body.verified = false ∧
    (githubOracle st commits t).body.error.isSome = true ∧
    (∀ (st2 : Nat) (commits2 : List Commit), 200 ≤ st2 → st2 < 300 →
      (githubOracle st2 commits2 t).body.error = none) ∧
    (handleVerifyMilestone w (githubOracle st commits t).body).verifLogs =
      w.verifLogs ++ [mkVerificationLog (githubOracle st commits t).body] ∧
    (mkVerificationLog (githubOracle st commits t).body).status =
      .failed ∧
    (handleVerifyMilestone w (githubOracle st commits t).body).mstatus =
      w.mstatus := by
  have hbody : (githubOracle st commits t).body.verified = false := by
    unfold githubOracle
    simp [hbad]
  obtain ⟨hlogs, hneg, _, _, _⟩ :=
    handleVerifyMilestone_spec w (githubOracle st commits t).body
  refine ⟨?_, hbody, ?_, ?_, hlogs, ?_, hneg hbody⟩
  · unfold githubOracle
    simp [hbad]
  · unfold githubOracle
    simp [hbad]
  · intro st2 commits2 hlo hhi
    unfold githubOracle
    simp [hlo, hhi]
  · unfold mkVerificationLog
    simp [hbody]

/-- C7 witness: an upstream 403 produces a `failed`-outcome record while
the milestone status stays unchanged. -/
theorem oracle_error_logged_as_failed_witness :
    (handleVerifyMilestone exWorld (githubOracle 403 [] 3).body).mstatus =
      exWorld.mstatus := by
  exact (oracle_error_logged_as_failed 403 [] 3 exWorld
    (by decide)).2.2.2.2.2.2

/-! ## C9 -/

/-- C9: over a 2xx-retrieved commit list of length `n` with threshold `t`
the oracle's verdict is `verified = (n ≥ t)` and the reported count is `n`;
when the list is nonempty the evidence is the most recent commit's content
identifier (full and 7-character short forms, plus its URL) and author
metadata, and the summary is the first line of that commit's message. -/
theorem repository_oracle_verdict
    (st : Nat) (commits : List Commit) (t : Nat)
    (h2 : 200 ≤ st) (h3 : st < 300) :
    ((githubOracle st commits t).body.verified = true ↔
      commits.length ≥ t) ∧
    (githubOracle st commits t).body.commitCount = commits.length ∧
    (∀ c rest, commits = c :: rest →
      (githubOracle st commits t).body.latestCommit =
        some { shaShort := c.sha.take 7, fullSha := c.sha,
               url := c.htmlUrl, message := firstLine c.message,
               author := c.authorName, date := c.authorDate }) := by
  have hok : 200 ≤ st ∧ st < 300 := ⟨h2, h3⟩
  refine ⟨?_, ?_, ?_⟩
  · unfold githubOracle
    simp [hok]
  · unfold githubOracle
    simp [hok]
  · intro c rest hc
    subst hc
    unfold githubOracle
    simp [hok, mkLatestCommitInfo]

/-- C9 witness: one retrieved commit against threshold 1 verifies, with the
commit's identifier and author as evidence. -/
theorem repository_oracle_verdict_witness :
    (githubOracle 200 [exCommitA] 1).body.verified = true := by
  exact (repository_oracle_verdict 200 [exCommitA] 1 (by decide)
    (by decide)).1.mpr (by decide)

end FreelancePay
